import Mathlib

/-!
Verification of the query-compiler and authorization core of the jobly
backend: a shallow embedding of `helpers/sql.js`, `models/company.js`,
the job filter compiler and the users-route authorization middleware,
together with theorems settling the specified properties.

JS objects that arrive as request data are modelled as ordered association
lists (JS string-keyed objects iterate in insertion order); `undefined`
lookups become `Option.none`; thrown errors become `Except.error`.
-/

namespace Jobly

/-- Values occurring in request objects and positional SQL parameter lists:
strings, (integer) numbers and booleans. -/
inductive JValue where
  | str (s : String)
  | num (n : Int)
  | bool (b : Bool)
deriving DecidableEq

/-- Error taxonomy of `expressError.js` as exercised by the modelled code:
`BadRequestError msg`, `NotFoundError msg`, and the unauthorized signal the
auth middleware raises. -/
inductive JError where
  | badRequest (msg : String)
  | notFound (msg : String)
  | unauthorized
deriving DecidableEq

/-- Property lookup on a JS object modelled as an ordered association list;
a missing key is `none` (JS `undefined`). -/
def jsLookup {α : Type} (obj : List (String × α)) (k : String) : Option α :=
  match obj with
  | [] => none
  | (k₁, v) :: rest => if k₁ = k then some v else jsLookup rest k

/-- JS template-literal stringification of a value. -/
def jsToString : JValue → String
  | .str s => s
  | .num n => toString n
  | .bool b => if b then "true" else "false"

/-- JS numeric coercion as used by the relational operators: numbers stay,
strings parse (non-numeric strings give NaN, modelled as `none`), booleans
become 0 or 1. -/
def jsToNumber : JValue → Option Int
  | .num n => some n
  | .str s => s.toInt?
  | .bool b => some (if b then 1 else 0)

/-- JS `a > b` on possibly-`undefined` operands: two strings compare
lexicographically; otherwise both coerce to numbers and any NaN (including
an `undefined` operand) makes the comparison false. -/
def jsGt (o₁ o₂ : Option JValue) : Bool :=
  match o₁, o₂ with
  | some (.str a), some (.str b) => decide (b < a)
  | some a, some b =>
      match jsToNumber a, jsToNumber b with
      | some x, some y => decide (y < x)
      | _, _ => false
  | _, _ => false

/-- JS `jsToSql[colName] || colName`: the mapped column when present AND
truthy; the empty string is falsy in JS, so a key mapped to `""` falls back
to the key itself, exactly like an absent key. -/
def jsOrKey (m : List (String × String)) (k : String) : String :=
  match jsLookup m k with
  | some c => if c = "" then k else c
  | none => k

/-- Embedding of `sqlForPartialUpdate(dataToUpdate, jsToSql)` from
`helpers/sql.js`: throws `BadRequestError "No data"` on an empty object,
otherwise emits one `"col"=$n` fragment per key (1-based, in iteration
order, column resolved by `jsToSql[colName] || colName`), comma-joined,
alongside `Object.values(dataToUpdate)`. -/
def sqlForPartialUpdate (dataToUpdate : List (String × JValue))
    (jsToSql : List (String × String)) : Except JError (String × List JValue) :=
  let keys := dataToUpdate.map Prod.fst
  if keys.length = 0 then
    Except.error (JError.badRequest "No data")
  else
    let cols := keys.enum.map
      (fun p => "\"" ++ jsOrKey jsToSql p.2 ++ "\"=$" ++ toString (p.1 + 1))
    Except.ok (String.intercalate ", " cols, dataToUpdate.map Prod.snd)

/-- Fragment list as claim C1 words it: the column is `jsToSql[key]`
whenever the key is present in the mapper (regardless of the mapped
value), and the key itself otherwise; `n` counts up from the given start. -/
def claimFragments (m : List (String × String)) : Nat → List String → List String
  | _, [] => []
  | n, k :: ks =>
      ("\"" ++ (match jsLookup m k with | some c => c | none => k) ++ "\"=$" ++ toString n)
        :: claimFragments m (n + 1) ks

/-- Fragment list as the code actually resolves columns: through the JS
truthiness fallback `jsToSql[colName] || colName`. -/
def codeFragments (m : List (String × String)) : Nat → List String → List String
  | _, [] => []
  | n, k :: ks =>
      ("\"" ++ jsOrKey m k ++ "\"=$" ++ toString n) :: codeFragments m (n + 1) ks

instance exceptDecEq {ε α : Type} [DecidableEq ε] [DecidableEq α] :
    DecidableEq (Except ε α) := fun x y =>
  match x, y with
  | .ok a, .ok b =>
      if h : a = b then .isTrue (by rw [h])
      else .isFalse (fun hc => h (Except.ok.inj hc))
  | .error a, .error b =>
      if h : a = b then .isTrue (by rw [h])
      else .isFalse (fun hc => h (Except.error.inj hc))
  | .ok _, .error _ => .isFalse (fun hc => Except.noConfusion hc)
  | .error _, .ok _ => .isFalse (fun hc => Except.noConfusion hc)

lemma codeFragments_length (m : List (String × String)) (ks : List String) :
    ∀ n : Nat, (codeFragments m n ks).length = ks.length := by
  induction ks with
  | nil => intro n; rfl
  | cons k ks ih => intro n; simp [codeFragments, ih]

lemma enumFrom_map_codeFragments (m : List (String × String)) (ks : List String) :
    ∀ n : Nat, (List.enumFrom n ks).map
        (fun p => "\"" ++ jsOrKey m p.2 ++ "\"=$" ++ toString (p.1 + 1)) =
      codeFragments m (n + 1) ks := by
  induction ks with
  | nil => intro n; rfl
  | cons k ks ih =>
      intro n
      simp only [List.enumFrom, List.map_cons, codeFragments]
      exact congrArg _ (ih (n + 1))

/-- Claim C1 (amended): on a non-empty field-set the compiler returns the
comma-join of one fragment per key, 1-based in iteration order, the column
resolved through the mapper with the JS-truthiness fallback, values in input
order, with fragment count = values length = key count. -/
theorem sqlForPartialUpdate_fragments (data : List (String × JValue))
    (m : List (String × String)) (h : data ≠ []) :
    sqlForPartialUpdate data m =
        Except.ok (String.intercalate ", " (codeFragments m 1 (data.map Prod.fst)),
          data.map Prod.snd) ∧
      (codeFragments m 1 (data.map Prod.fst)).length = data.length ∧
      (data.map Prod.snd).length = data.length := by
  have hl : ¬ (data.map Prod.fst).length = 0 := by
    simpa [List.length_eq_zero] using h
  refine ⟨?_, ?_, by simp⟩
  · unfold sqlForPartialUpdate
    rw [if_neg hl]
    have he := enumFrom_map_codeFragments m (data.map Prod.fst) 0
    simp only [Nat.zero_add] at he
    simp only [List.enum]
    rw [he]
  · rw [codeFragments_length]; simp

/-- Witness for the amended C1 at the `sql.test.js` example shape. -/
theorem sqlForPartialUpdate_fragments_witness :
    sqlForPartialUpdate [("firstName", JValue.str "Aliya"), ("age", JValue.num 32)]
        [("firstName", "first_name")] =
        Except.ok (String.intercalate ", "
          (codeFragments [("firstName", "first_name")] 1
            (([("firstName", JValue.str "Aliya"), ("age", JValue.num 32)] :
              List (String × JValue)).map Prod.fst)),
          ([("firstName", JValue.str "Aliya"), ("age", JValue.num 32)] :
            List (String × JValue)).map Prod.snd) ∧
      (codeFragments [("firstName", "first_name")] 1
        (([("firstName", JValue.str "Aliya"), ("age", JValue.num 32)] :
          List (String × JValue)).map Prod.fst)).length = 2 ∧
      (([("firstName", JValue.str "Aliya"), ("age", JValue.num 32)] :
        List (String × JValue)).map Prod.snd).length = 2 :=
  sqlForPartialUpdate_fragments
    [("firstName", JValue.str "Aliya"), ("age", JValue.num 32)]
    [("firstName", "first_name")] (by simp)

/-- Counterexample to claim C1 as stated: with the mapper sending key `a` to
the empty string, the key IS present in the mapper, yet the code's truthiness
fallback emits the key, not the mapped (empty) column. -/
theorem sqlForPartialUpdate_claim_false :
    sqlForPartialUpdate [("a", JValue.num 1)] [("a", "")] ≠
      Except.ok (String.intercalate ", " (claimFragments [("a", "")] 1 ["a"]),
        [JValue.num 1]) := by
  decide

/-- Claim C2: an empty field-set fails with `BadRequestError "No data"` for
every column mapper, and no SQL text is produced. -/
theorem sqlForPartialUpdate_empty (m : List (String × String)) :
    sqlForPartialUpdate [] m = Except.error (JError.badRequest "No data") := rfl

end Jobly

namespace Jobly

/-- Base SELECT of `Company.findAll` (whitespace of the multi-line template
literal normalized to single spaces). -/
def companyBaseSelect : String :=
  "SELECT handle, name, description, num_employees AS \"numEmployees\", logo_url AS \"logoUrl\" FROM companies"

/-- One `values.push(v); whereStatements.push(txt + \"$\" + values.length)`
step of `Company.findAll`: the parameter number is the value list's length
after the push. -/
def addPred (acc : List String × List JValue) (txt : String) (v : JValue) :
    List String × List JValue :=
  (acc.1 ++ [txt ++ "$" ++ toString (acc.2.length + 1)], acc.2 ++ [v])

/-- Embedding of `Company.findAll(searchFilters)` from `models/company.js` up
to the `db.query(query, values)` boundary: it returns the query text and the
positional value list handed to the external execution engine (the engine
itself is out of scope). Destructuring reads the three recognized keys; the
range check `minEmployees > maxEmployees` uses JS comparison (false when
either side is `undefined`); then one predicate and one pushed value per
present criterion, in source order name, minEmployees, maxEmployees; a WHERE
clause only when at least one predicate exists; `ORDER BY name` always. -/
def Company.findAll (searchFilters : List (String × JValue)) :
    Except JError (String × List JValue) :=
  let name := jsLookup searchFilters "name"
  let minEmployees := jsLookup searchFilters "minEmployees"
  let maxEmployees := jsLookup searchFilters "maxEmployees"
  if jsGt minEmployees maxEmployees then
    Except.error (JError.badRequest "min employees can not be greater the max employees")
  else
    let acc0 : List String × List JValue := ([], [])
    let acc1 :=
      match name with
      | some v => addPred acc0 "name ILIKE " (JValue.str ("%" ++ jsToString v ++ "%"))
      | none => acc0
    let acc2 :=
      match minEmployees with
      | some v => addPred acc1 "num_employees >= " v
      | none => acc1
    let acc3 :=
      match maxEmployees with
      | some v => addPred acc2 "num_employees <= " v
      | none => acc2
    let query :=
      if acc3.1.length > 0 then
        companyBaseSelect ++ " WHERE " ++ String.intercalate " AND " acc3.1
      else companyBaseSelect
    Except.ok (query ++ " ORDER BY name", acc3.2)

/-- Predicate templates and values in the spec's fixed precedence order
(substring-name, minimum, maximum), one pair per present criterion; the
template takes the positional parameter number. -/
def specCompanyPairs (name minE maxE : Option JValue) :
    List ((Nat → String) × JValue) :=
  (match name with
    | some v => [((fun n => "name ILIKE $" ++ toString n),
        JValue.str ("%" ++ jsToString v ++ "%"))]
    | none => []) ++
  (match minE with
    | some v => [((fun n => "num_employees >= $" ++ toString n), v)]
    | none => []) ++
  (match maxE with
    | some v => [((fun n => "num_employees <= $" ++ toString n), v)]
    | none => [])

/-- Sequential 1-based numbering of predicate templates, as the spec words
the positional parameter scheme. -/
def numberFrom : Nat → List ((Nat → String) × JValue) → List String
  | _, [] => []
  | n, (f, _) :: rest => f n :: numberFrom (n + 1) rest

/-- WHERE tail per the spec: empty when no predicate, otherwise the
AND-conjunction of the numbered predicates. -/
def specWhereTail (pairs : List ((Nat → String) × JValue)) : String :=
  if pairs.isEmpty then ""
  else " WHERE " ++ String.intercalate " AND " (numberFrom 1 pairs)

/-- The three recognized company filter criteria; all other keys are ignored. -/
def companyRecognizedKeys : List String := ["name", "minEmployees", "maxEmployees"]

lemma company_findAll_gt (g : List (String × JValue))
    (h : jsGt (jsLookup g "minEmployees") (jsLookup g "maxEmployees") = true) :
    Company.findAll g =
      Except.error (JError.badRequest "min employees can not be greater the max employees") := by
  simp only [Company.findAll]
  simp [h]

lemma company_findAll_ok (g : List (String × JValue))
    (h : jsGt (jsLookup g "minEmployees") (jsLookup g "maxEmployees") = false) :
    Company.findAll g =
      Except.ok ((companyBaseSelect ++ specWhereTail (specCompanyPairs
            (jsLookup g "name") (jsLookup g "minEmployees")
            (jsLookup g "maxEmployees"))) ++ " ORDER BY name",
        (specCompanyPairs (jsLookup g "name") (jsLookup g "minEmployees")
          (jsLookup g "maxEmployees")).map Prod.snd) := by
  rcases hname : jsLookup g "name" with _ | v₁ <;>
    rcases hminr : jsLookup g "minEmployees" with _ | v₂ <;>
      rcases hmaxr : jsLookup g "maxEmployees" with _ | v₃ <;>
        (rw [hminr, hmaxr] at h
         simp only [Company.findAll]
         rw [hname, hminr, hmaxr]
         simp only [h]
         rfl)

lemma jsLookup_filter_keys {α : Type} (l : List (String × α)) (ks : List String)
    (k : String) (hk : ks.contains k = true) :
    jsLookup (l.filter (fun p => ks.contains p.1)) k = jsLookup l k := by
  have hk' : k ∈ ks := by simpa using hk
  induction l with
  | nil => rfl
  | cons a t ih =>
      obtain ⟨k₁, v⟩ := a
      by_cases hkk : k₁ = k
      · subst hkk
        simp [List.filter_cons, hk', jsLookup]
      · have ih' : jsLookup (List.filter (fun p => decide (p.1 ∈ ks)) t) k =
            jsLookup t k := by simpa using ih
        by_cases hpk : k₁ ∈ ks
        · simp [List.filter_cons, hpk, jsLookup, hkk, ih']
        · simp [List.filter_cons, hpk, jsLookup, hkk, ih']

/-- Claim C3: when both employee bounds are present and the minimum exceeds
the maximum, `Company.findAll` fails with `BadRequestError` before any
predicate is built or any query issued, whatever else the filter holds. -/
theorem company_findAll_range_check (filters : List (String × JValue)) (a b : Int)
    (hmin : jsLookup filters "minEmployees" = some (JValue.num a))
    (hmax : jsLookup filters "maxEmployees" = some (JValue.num b))
    (hab : b < a) :
    Company.findAll filters =
      Except.error (JError.badRequest "min employees can not be greater the max employees") := by
  apply company_findAll_gt
  rw [hmin, hmax]
  simp [jsGt, jsToNumber, hab]

/-- Witness for C3: minEmployees 50, maxEmployees 10, with a name filter also
present. -/
theorem company_findAll_range_check_witness :
    Company.findAll
        [("minEmployees", JValue.num 50), ("maxEmployees", JValue.num 10),
          ("name", JValue.str "x")] =
      Except.error (JError.badRequest "min employees can not be greater the max employees") :=
  company_findAll_range_check
    [("minEmployees", JValue.num 50), ("maxEmployees", JValue.num 10),
      ("name", JValue.str "x")] 50 10 rfl rfl (by decide)

/-- Claim C4: on a filter passing the range check, `Company.findAll` builds
exactly one predicate and one positional value per present recognized
criterion, in the fixed order name, minEmployees, maxEmployees, joined with
AND after the base SELECT: the name predicate is `name ILIKE` against the
`%name%` value, the numeric ones are the inclusive `num_employees >=` and
`num_employees <=`, with parameter numbers matching value positions. -/
theorem company_findAll_compile (filters : List (String × JValue))
    (h : jsGt (jsLookup filters "minEmployees") (jsLookup filters "maxEmployees") = false) :
    Company.findAll filters =
      Except.ok ((companyBaseSelect ++ specWhereTail (specCompanyPairs
            (jsLookup filters "name") (jsLookup filters "minEmployees")
            (jsLookup filters "maxEmployees"))) ++ " ORDER BY name",
        (specCompanyPairs (jsLookup filters "name") (jsLookup filters "minEmployees")
          (jsLookup filters "maxEmployees")).map Prod.snd) :=
  company_findAll_ok filters h

/-- Witness for C4 at a filter with all three criteria present. -/
theorem company_findAll_compile_witness :
    Company.findAll
        [("name", JValue.str "net"), ("minEmployees", JValue.num 10),
          ("maxEmployees", JValue.num 500)] =
      Except.ok ((companyBaseSelect ++ specWhereTail (specCompanyPairs
            (jsLookup [("name", JValue.str "net"), ("minEmployees", JValue.num 10),
              ("maxEmployees", JValue.num 500)] "name")
            (jsLookup [("name", JValue.str "net"), ("minEmployees", JValue.num 10),
              ("maxEmployees", JValue.num 500)] "minEmployees")
            (jsLookup [("name", JValue.str "net"), ("minEmployees", JValue.num 10),
              ("maxEmployees", JValue.num 500)] "maxEmployees"))) ++ " ORDER BY name",
        (specCompanyPairs
          (jsLookup [("name", JValue.str "net"), ("minEmployees", JValue.num 10),
            ("maxEmployees", JValue.num 500)] "name")
          (jsLookup [("name", JValue.str "net"), ("minEmployees", JValue.num 10),
            ("maxEmployees", JValue.num 500)] "minEmployees")
          (jsLookup [("name", JValue.str "net"), ("minEmployees", JValue.num 10),
            ("maxEmployees", JValue.num 500)] "maxEmployees")).map Prod.snd) :=
  company_findAll_compile
    [("name", JValue.str "net"), ("minEmployees", JValue.num 10),
      ("maxEmployees", JValue.num 500)] rfl

/-- Claim C6: with zero recognized present criteria the issued query is the
base SELECT with no WHERE clause plus `ORDER BY name` and an empty value
list; and every successful compile, predicates or not, ends in the same
ordering clause. -/
theorem company_findAll_zero_criteria (filters : List (String × JValue))
    (h₁ : jsLookup filters "name" = none)
    (h₂ : jsLookup filters "minEmployees" = none)
    (h₃ : jsLookup filters "maxEmployees" = none) :
    Company.findAll filters = Except.ok (companyBaseSelect ++ " ORDER BY name", []) ∧
      ∀ g q vs, Company.findAll g = Except.ok (q, vs) →
        ∃ p, q = p ++ " ORDER BY name" := by
  constructor
  · simp only [Company.findAll]
    rw [h₁, h₂, h₃]
    rfl
  · intro g q vs hg
    cases hG : jsGt (jsLookup g "minEmployees") (jsLookup g "maxEmployees") with
    | true =>
        rw [company_findAll_gt g hG] at hg
        exact absurd hg (by simp)
    | false =>
        rw [company_findAll_ok g hG] at hg
        exact ⟨companyBaseSelect ++ specWhereTail (specCompanyPairs
            (jsLookup g "name") (jsLookup g "minEmployees") (jsLookup g "maxEmployees")),
          (congrArg Prod.fst (Except.ok.inj hg)).symm⟩

/-- Witness for C6: a filter holding only an unrecognized key. -/
theorem company_findAll_zero_criteria_witness :
    Company.findAll [("foo", JValue.str "bar")] =
        Except.ok (companyBaseSelect ++ " ORDER BY name", []) ∧
      ∀ g q vs, Company.findAll g = Except.ok (q, vs) →
        ∃ p, q = p ++ " ORDER BY name" :=
  company_findAll_zero_criteria [("foo", JValue.str "bar")] rfl rfl rfl

/-- Claim C7: unrecognized keys contribute nothing: compiling any filter
object equals compiling the same object with the unrecognized keys removed. -/
theorem company_findAll_ignores_unrecognized (filters : List (String × JValue)) :
    Company.findAll filters =
      Company.findAll (filters.filter (fun p => companyRecognizedKeys.contains p.1)) := by
  simp only [Company.findAll]
  rw [jsLookup_filter_keys filters companyRecognizedKeys "name" rfl,
    jsLookup_filter_keys filters companyRecognizedKeys "minEmployees" rfl,
    jsLookup_filter_keys filters companyRecognizedKeys "maxEmployees" rfl]

/-- Modelled from the spec: the equity-presence predicate of the job
`FilterCompiler` (the file `models/job.js` is not in the repository snapshot;
only `models/job.test.js` and the jobs route tests are). Per the spec, a true
`hasEquity` flag adds one predicate restricting to non-null equity strictly
greater than zero; a false or absent flag adds none. -/
def jobEquityClause (hasEquity : Option Bool) : List String :=
  match hasEquity with
  | some true => ["equity IS NOT NULL AND equity > 0"]
  | _ => []

/-- SQL truth of `equity IS NOT NULL AND equity > 0` on one row's nullable
equity column: NULL fails, any value at most zero fails. -/
def sqlEquityGtZero (equity : Option ℚ) : Bool :=
  match equity with
  | some e => decide (0 < e)
  | none => false

/-- A row passes the compiled equity constraint when every predicate the
flag added holds of its equity column. -/
def jobRowPassesEquity (hasEquity : Option Bool) (equity : Option ℚ) : Bool :=
  (jobEquityClause hasEquity).all (fun _ => sqlEquityGtZero equity)

/-- Claim C5 (spec-modelled): with `hasEquity` true the compiled filter keeps
exactly the rows whose equity is non-null and strictly positive; with the
flag false or absent the clause list gains no equity predicate and every row
passes regardless of its equity. -/
theorem job_hasEquity_filter :
    (∀ eq : Option ℚ, jobRowPassesEquity (some true) eq = true ↔
      ∃ e, eq = some e ∧ 0 < e) ∧
    jobEquityClause (some false) = [] ∧ jobEquityClause none = [] ∧
    jobEquityClause (some true) ≠ [] ∧
    ∀ eq : Option ℚ, jobRowPassesEquity (some false) eq = true ∧
      jobRowPassesEquity none eq = true := by
  refine ⟨?_, rfl, rfl, by simp [jobEquityClause], fun eq => ⟨rfl, rfl⟩⟩
  intro eq
  cases eq with
  | none => simp [jobRowPassesEquity, jobEquityClause, sqlEquityGtZero]
  | some e => simp [jobRowPassesEquity, jobEquityClause, sqlEquityGtZero]

/-- Credential claims as the auth layer sees them after token verification:
the subject identity (`username`) and the elevation flag (`isAdmin`). -/
structure Claims where
  identity : String
  isElevated : Bool
deriving DecidableEq

/-- Outcome of an authorization policy. -/
inductive Decision where
  | allowed
  | denied
deriving DecidableEq

/-- Modelled from the spec: the `ensureUserOrAdmin` middleware guarding the
`/users/:username` routes (the file `middleware/auth.js` is not in the
repository snapshot; only its import and use in the users routes are). Per
the spec, Allowed when the claims are elevated or the claims identity equals
the route-bound identity parameter; Denied otherwise. -/
def ensureUserOrAdmin (claims : Claims) (routeIdentity : String) : Decision :=
  if claims.isElevated || claims.identity == routeIdentity then
    Decision.allowed
  else
    Decision.denied

/-- A users route behind the gate: the route's action runs only on Allowed;
a Denied outcome short-circuits to the unauthorized error without the action
(model call, compiler call) contributing anything to the outcome. -/
def guardedUserRoute {α : Type} (claims : Claims) (routeIdentity : String)
    (action : Except JError α) : Except JError α :=
  match ensureUserOrAdmin claims routeIdentity with
  | .allowed => action
  | .denied => Except.error JError.unauthorized

/-- Claim C8 (spec-modelled): the gate allows exactly elevation or identity
match and denies otherwise, and a denied request produces the unauthorized
error whatever the guarded action would have done. -/
theorem ensureUserOrAdmin_spec (c : Claims) (r : String) :
    (ensureUserOrAdmin c r = Decision.allowed ↔
      (c.isElevated = true ∨ c.identity = r)) ∧
    (ensureUserOrAdmin c r = Decision.denied ↔
      ¬ (c.isElevated = true ∨ c.identity = r)) ∧
    (ensureUserOrAdmin c r = Decision.denied →
      ∀ (α : Type) (action : Except JError α),
        guardedUserRoute c r action = Except.error JError.unauthorized) := by
  refine ⟨?_, ?_, ?_⟩
  · by_cases h : c.isElevated = true ∨ c.identity = r
    · constructor
      · intro _; exact h
      · intro _; simp [ensureUserOrAdmin, h]
    · constructor
      · intro hall
        push_neg at h
        simp [ensureUserOrAdmin, h.1, h.2] at hall
      · intro hh; exact absurd hh h
  · by_cases h : c.isElevated = true ∨ c.identity = r
    · constructor
      · intro hden
        rcases h with h | h <;> simp [ensureUserOrAdmin, h] at hden
      · intro hh; exact absurd h hh
    · constructor
      · intro _; exact h
      · intro _
        push_neg at h
        simp [ensureUserOrAdmin, h.1, h.2]
  · intro hden α action
    simp [guardedUserRoute, hden]

/-- Witness for C8 at the spec's example triple: alice non-elevated on bob's
route is denied and short-circuited; elevated alice and bob himself are
allowed. -/
theorem ensureUserOrAdmin_spec_witness :
    ensureUserOrAdmin ⟨"alice", false⟩ "bob" = Decision.denied ∧
    guardedUserRoute ⟨"alice", false⟩ "bob" (Except.ok (0 : Nat)) =
      Except.error JError.unauthorized ∧
    ensureUserOrAdmin ⟨"alice", true⟩ "bob" = Decision.allowed ∧
    ensureUserOrAdmin ⟨"bob", false⟩ "bob" = Decision.allowed :=
  ⟨(ensureUserOrAdmin_spec ⟨"alice", false⟩ "bob").2.1.mpr (by decide),
    (ensureUserOrAdmin_spec ⟨"alice", false⟩ "bob").2.2 (by decide) Nat (Except.ok 0),
    (ensureUserOrAdmin_spec ⟨"alice", true⟩ "bob").1.mpr (Or.inl rfl),
    (ensureUserOrAdmin_spec ⟨"bob", false⟩ "bob").1.mpr (Or.inr rfl)⟩

/-- The column mapper `Company.update` hands to `sqlForPartialUpdate`. -/
def companyJsToSql : List (String × String) :=
  [("numEmployees", "num_employees"), ("logoUrl", "logo_url")]

/-- UPDATE statement text of `Company.update` (whitespace normalized), given
the compiled SET clause and the number of SET values; the handle parameter
continues the positional numbering. -/
def companyUpdateSql (setCols : String) (numValues : Nat) : String :=
  "UPDATE companies SET " ++ setCols ++ " WHERE handle = $" ++
    toString (numValues + 1) ++
    " RETURNING handle, name, description, num_employees AS \"numEmployees\", logo_url AS \"logoUrl\""

/-- DELETE statement text of `Company.remove` (whitespace normalized). -/
def companyDeleteSql : String :=
  "DELETE FROM companies WHERE handle = $1 RETURNING handle"

/-- Embedding of `Company.update(handle, data)`: compile the partial update
(per-entity mapper), issue the UPDATE through the external engine `exec`
with the handle appended to the positional values, and treat a zero-row
result as `NotFoundError`; the first returned row is the result. -/
def Company.update {ρ : Type} (handle : String) (data : List (String × JValue))
    (exec : String → List JValue → List ρ) : Except JError ρ :=
  match sqlForPartialUpdate data companyJsToSql with
  | .error e => Except.error e
  | .ok (setCols, values) =>
      match exec (companyUpdateSql setCols values.length)
          (values ++ [JValue.str handle]) with
      | [] => Except.error (JError.notFound ("No company: " ++ handle))
      | r :: _ => Except.ok r

/-- Embedding of `Company.remove(handle)`: issue the DELETE through the
external engine and treat a zero-row result as `NotFoundError`. -/
def Company.remove {ρ : Type} (handle : String)
    (exec : String → List JValue → List ρ) : Except JError Unit :=
  match exec companyDeleteSql [JValue.str handle] with
  | [] => Except.error (JError.notFound ("No company: " ++ handle))
  | _ :: _ => Except.ok ()

/-- Claim C9: with a non-empty update field-set, `Company.update` raises
`NotFoundError` exactly when the executed UPDATE returns zero rows, and
`Company.remove` raises it exactly when the executed DELETE returns zero
rows; the compilers themselves never decide not-found. -/
theorem company_mutations_notFound {ρ σ : Type} (handle : String)
    (data : List (String × JValue))
    (execU : String → List JValue → List ρ)
    (execR : String → List JValue → List σ) :
    (∀ setCols values, sqlForPartialUpdate data companyJsToSql =
        Except.ok (setCols, values) →
      (Company.update handle data execU =
          Except.error (JError.notFound ("No company: " ++ handle)) ↔
        execU (companyUpdateSql setCols values.length)
          (values ++ [JValue.str handle]) = [])) ∧
    (Company.remove handle execR =
        Except.error (JError.notFound ("No company: " ++ handle)) ↔
      execR companyDeleteSql [JValue.str handle] = []) := by
  constructor
  · intro setCols values hc
    unfold Company.update
    rw [hc]
    cases hrows : execU (companyUpdateSql setCols values.length)
        (values ++ [JValue.str handle]) with
    | nil => simp [hrows]
    | cons r rest => simp [hrows]
  · unfold Company.remove
    cases hrows : execR companyDeleteSql [JValue.str handle] with
    | nil => simp [hrows]
    | cons r rest => simp [hrows]

/-- Witness for C9: a one-field update and a remove against an engine that
returns zero rows. -/
theorem company_mutations_notFound_witness :
    (∀ setCols values, sqlForPartialUpdate [("name", JValue.str "New")]
        companyJsToSql = Except.ok (setCols, values) →
      (Company.update "nope" [("name", JValue.str "New")]
          (fun _ _ => ([] : List Nat)) =
          Except.error (JError.notFound ("No company: " ++ "nope")) ↔
        (fun (_ : String) (_ : List JValue) => ([] : List Nat))
          (companyUpdateSql setCols values.length)
          (values ++ [JValue.str "nope"]) = [])) ∧
    (Company.remove "nope" (fun _ _ => ([] : List Nat)) =
        Except.error (JError.notFound ("No company: " ++ "nope")) ↔
      (fun (_ : String) (_ : List JValue) => ([] : List Nat))
        companyDeleteSql [JValue.str "nope"] = []) :=
  company_mutations_notFound "nope" [("name", JValue.str "New")]
    (fun _ _ => ([] : List Nat)) (fun _ _ => ([] : List Nat))

/-- A stored row of the `companies` table. -/
structure CompanyRec where
  handle : String
  name : String
  description : String
  numEmployees : Option Int
  logoUrl : Option String
deriving DecidableEq

/-- A stored row of the `jobs` table; `salary` and `equity` are nullable. -/
structure JobRec where
  id : Int
  title : String
  salary : Option Int
  equity : Option ℚ
  companyHandle : String
deriving DecidableEq

/-- Rows of `companies FULL JOIN jobs ON c.handle = j.company_handle`: every
matched pair, every company with no matching job against a null job side,
and every job with no matching company against a null company side. -/
def companiesFullJoinJobs (cs : List CompanyRec) (js : List JobRec) :
    List (Option CompanyRec × Option JobRec) :=
  (cs.map (fun c =>
    match js.filter (fun j => j.companyHandle == c.handle) with
    | [] => [((some c : Option CompanyRec), (none : Option JobRec))]
    | ms => ms.map (fun j => (some c, some j)))).flatten ++
  (js.filter (fun j => ¬ cs.any (fun c => c.handle == j.companyHandle))).map
    (fun j => ((none : Option CompanyRec), some j))

/-- The `WHERE handle = $1` test on one joined row: the unqualified `handle`
resolves to `companies.handle` (the `jobs` table has no such column), and a
SQL comparison against NULL is never true, so a row survives exactly when
its company side is present with the given handle; surviving rows keep the
company side projected out of the `Option`. -/
def whereHandlePred (h : String) (r : Option CompanyRec × Option JobRec) :
    Option (CompanyRec × Option JobRec) :=
  match r.1 with
  | some c => if c.handle == h then some (c, r.2) else none
  | none => none

/-- The joined rows surviving `WHERE handle = $1`. -/
def companyGetRows (cs : List CompanyRec) (js : List JobRec) (h : String) :
    List (CompanyRec × Option JobRec) :=
  (companiesFullJoinJobs cs js).filterMap (whereHandlePred h)

/-- One entry of the `jobs` list `Company.get` assembles: the job columns of
a joined row, each null when the job side of the row is null. -/
structure JobEntryOut where
  id : Option Int
  title : Option String
  salary : Option Int
  equity : Option ℚ
deriving DecidableEq

/-- The object `Company.get` returns. -/
structure CompanyOut where
  handle : String
  name : String
  description : String
  numEmployees : Option Int
  logoUrl : Option String
  jobs : List JobEntryOut
deriving DecidableEq

/-- Embedding of `Company.get(handle)` over given table contents: run the
FULL JOIN query, throw `NotFoundError` on zero rows, otherwise map every
row to a jobs entry (job columns read off the possibly-null job side) and
read the company columns off the first row. -/
def Company.get (handle : String) (cs : List CompanyRec) (js : List JobRec) :
    Except JError CompanyOut :=
  let rows := companyGetRows cs js handle
  match rows with
  | [] => Except.error (JError.notFound ("No company: " ++ handle))
  | (c₀, _) :: _ =>
      Except.ok
        { handle := c₀.handle
          name := c₀.name
          description := c₀.description
          numEmployees := c₀.numEmployees
          logoUrl := c₀.logoUrl
          jobs := rows.map (fun r =>
            { id := r.2.map JobRec.id
              title := r.2.map JobRec.title
              salary := r.2.bind JobRec.salary
              equity := r.2.bind JobRec.equity }) }

lemma filterMap_unmatched (h : String) (l : List JobRec) :
    (l.map (fun j => ((none : Option CompanyRec), (some j : Option JobRec)))).filterMap
      (whereHandlePred h) = [] := by
  induction l with
  | nil => rfl
  | cons a t ih => simp [List.filterMap_cons, whereHandlePred, ih]

lemma filterMap_matchedJobs (h : String) (a : CompanyRec) (ms : List JobRec) :
    (ms.map (fun j => ((some a : Option CompanyRec), (some j : Option JobRec)))).filterMap
        (whereHandlePred h) =
      if a.handle == h then ms.map (fun j => (a, (some j : Option JobRec))) else [] := by
  induction ms with
  | nil => cases ha : a.handle == h <;> simp [ha]
  | cons j t ih =>
      cases ha : a.handle == h <;>
        (rw [ha] at ih; simp [List.filterMap_cons, whereHandlePred, ha, ih])

lemma filterMap_comp_matched (h : String) (a : CompanyRec)
    (he : (a.handle == h) = true) (ms : List JobRec) :
    List.filterMap
        (whereHandlePred h ∘ fun j => ((some a : Option CompanyRec), (some j : Option JobRec)))
        ms =
      List.map (fun j => (a, (some j : Option JobRec))) ms := by
  induction ms with
  | nil => rfl
  | cons j t ih => simp [List.filterMap_cons, whereHandlePred, he, ih]

lemma matched_part (js : List JobRec) (h : String) (cs : List CompanyRec) :
    ((cs.map (fun c =>
        match js.filter (fun j => j.companyHandle == c.handle) with
        | [] => [((some c : Option CompanyRec), (none : Option JobRec))]
        | ms => ms.map (fun j => (some c, some j)))).flatten).filterMap
      (whereHandlePred h) =
    ((cs.filter (fun x => x.handle == h)).map (fun c =>
        match js.filter (fun j => j.companyHandle == c.handle) with
        | [] => [(c, (none : Option JobRec))]
        | ms => ms.map (fun j => (c, some j)))).flatten := by
  induction cs with
  | nil => rfl
  | cons a t ih =>
      simp only [List.map_cons, List.flatten_cons, List.filterMap_append, ih,
        List.filter_cons]
      cases hm : js.filter (fun j => j.companyHandle == a.handle) with
      | nil =>
          cases ha : a.handle == h with
          | true => simp [List.filterMap_cons, whereHandlePred, ha, hm]
          | false => simp [List.filterMap_cons, whereHandlePred, ha, hm]
      | cons j ms =>
          cases ha : a.handle == h with
          | true =>
              simp [List.filterMap_cons, whereHandlePred, ha, hm,
                filterMap_comp_matched h a ha]
          | false =>
              simp [List.filterMap_cons, whereHandlePred, ha, hm, filterMap_matchedJobs]

lemma companyGetRows_zero_jobs (cs : List CompanyRec) (js : List JobRec)
    (h : String) (c : CompanyRec)
    (hc : cs.filter (fun x => x.handle == h) = [c])
    (hj : js.filter (fun j => j.companyHandle == h) = []) :
    companyGetRows cs js h = [(c, (none : Option JobRec))] := by
  have hch : c.handle == h := by
    have hmem : c ∈ cs.filter (fun x => x.handle == h) := by
      rw [hc]; exact List.mem_singleton.mpr rfl
    exact (List.mem_filter.mp hmem).2
  have hceq : c.handle = h := by
    have := hch
    simpa using this
  unfold companyGetRows companiesFullJoinJobs
  rw [List.filterMap_append, filterMap_unmatched, matched_part, hc]
  simp only [List.map_cons, List.map_nil, List.flatten_cons, List.flatten_nil,
    List.append_nil, hceq, hj]

/-- Claim C10: for an existing company with zero jobs, `Company.get` does not
return an empty jobs list: the FULL JOIN leaves one row with a null job
side, so the jobs list is a single entry whose id, title, salary and equity
are all null. -/
theorem company_get_zero_jobs (cs : List CompanyRec) (js : List JobRec)
    (h : String) (c : CompanyRec)
    (hc : cs.filter (fun x => x.handle == h) = [c])
    (hj : js.filter (fun j => j.companyHandle == h) = []) :
    Company.get h cs js =
      Except.ok
        { handle := c.handle
          name := c.name
          description := c.description
          numEmployees := c.numEmployees
          logoUrl := c.logoUrl
          jobs := [{ id := none, title := none, salary := none, equity := none }] } := by
  unfold Company.get
  rw [companyGetRows_zero_jobs cs js h c hc hj]
  rfl

/-- Witness for C10: a one-company table with an empty jobs table. -/
theorem company_get_zero_jobs_witness :
    Company.get "c1" [⟨"c1", "C1", "desc", some 10, none⟩] [] =
      Except.ok
        { handle := "c1"
          name := "C1"
          description := "desc"
          numEmployees := some 10
          logoUrl := none
          jobs := [{ id := none, title := none, salary := none, equity := none }] } :=
  company_get_zero_jobs [⟨"c1", "C1", "desc", some 10, none⟩] [] "c1"
    ⟨"c1", "C1", "desc", some 10, none⟩ (by rfl) (by rfl)

end Jobly
